import Mathlib

/-!
# Verification of the RealtimeAudioTranscribing pipeline

Shallow embedding of the segmentation-and-dispatch pipeline of the
RealtimeAudioTranscribing browser extension:

* `offscreen.js` — the silence-detection loop (`startSilenceDetection`), the
  `MediaRecorder` buffering callbacks (`ondataavailable` / `onstop`) and the
  pause/resume message handling;
* the background service worker — `transcribeAudio` (provider dispatch),
  `callGeminiApi` (bounded retry with exponential backoff), the placeholder
  `callWhisperApi` / `callDeepgramApi`, `handleAudioChunk` and
  `processOfflineQueue` (offline queue);
* the popup — `handlePauseResume` and the persisted timer state.

Timers are modelled by explicit tick counting: the silence-check interval
fires once every 200 ms, and the 1500 ms hangover timeout set during one tick
outlives exactly `1500 / 200 = 7` further ticks and fires before the 8th.
-/

namespace RealtimeAudio

/-! ## Constants (offscreen.js lines 13-14, 104-140) -/

/-- `SILENCE_THRESHOLD = -50` dB: a sample is classified as speech when its
loudness is strictly above this value. -/
def SILENCE_THRESHOLD : Int := -50

/-- `SPEECH_TIMEOUT = 1500` ms: the silence hangover before a chunk is sent. -/
def SPEECH_TIMEOUT : Nat := 1500

/-- The silence-check interval period: 200 ms (`setInterval(..., 200)`). -/
def CHECK_PERIOD : Nat := 200

/-- Number of 200 ms ticks a freshly set hangover timeout survives: the
timeout set during one tick fires between the 7th and the 8th later tick,
so it is armed with `1500 / 200 + 1 = 8` tick credits and fires when the
credit is exhausted. -/
def timerTicks : Nat := SPEECH_TIMEOUT / CHECK_PERIOD + 1

/-- A sample is loud (speech) when its decibel value exceeds the threshold
(`db > SILENCE_THRESHOLD`). -/
def isLoud (db : Int) : Bool := SILENCE_THRESHOLD < db

/-! ## Segmentation engine state (offscreen.js) -/

/-- The `MediaRecorder.state` values used by the source. -/
inductive MRState
  | inactive
  | recording
  | paused
  deriving DecidableEq, Repr

/-- State of the offscreen capture context: recorder state, the pending
silence timeout (`speechTimeout`, counted in remaining 200 ms ticks), the
audio buffered since the recorder last started (in captured ticks), the
number of chunks emitted via `processAudioChunk`, and whether any chunk was
emitted while the recorder was paused. -/
structure SegState where
  recState : MRState
  timer : Option Nat
  buffer : Nat
  chunks : Nat
  pausedEmit : Bool
  deriving DecidableEq, Repr

/-- Initial offscreen state right after `startRecording` set up the recorder:
recorder inactive, no pending timeout, empty buffer. -/
def segInit : SegState := ⟨.inactive, none, 0, 0, false⟩

/-- The `speechTimeout` callback (offscreen.js lines 133-137): stop the
recorder, which triggers `onstop` (lines 66-72) emitting the buffered bytes
as one chunk when the buffer is non-empty. Stopping is a no-op here when the
recorder is already inactive (the timeout is only ever set while recording). -/
def fireTimeout (s : SegState) : SegState :=
  if s.recState = .inactive then { s with timer := none }
  else
    { recState := .inactive
      timer := none
      buffer := 0
      chunks := s.chunks + (if s.buffer = 0 then 0 else 1)
      pausedEmit := s.pausedEmit || (s.recState = .paused && s.buffer ≠ 0) }

/-- One execution of the `setInterval` callback (offscreen.js lines 104-139)
on a loudness sample `db`: skipped entirely while the recorder is paused;
on speech, start the recorder if inactive and clear any pending timeout;
on silence, arm the hangover timeout when recording and none is pending. -/
def sampleHandler (db : Int) (s : SegState) : SegState :=
  if s.recState = .paused then s
  else if isLoud db then
    let s1 := if s.recState = .inactive then { s with recState := .recording } else s
    { s1 with timer := none }
  else if s.recState = .recording && s.timer = none then
    { s with timer := some timerTicks }
  else s

/-- The 200 ms of real time between one interval tick and the next: while
recording, the recorder captures the audio of this period (the buffer grows);
a pending timeout loses one tick credit and fires when the credit runs out. -/
def tickAdvance (s : SegState) : SegState :=
  let s1 := if s.recState = .recording then { s with buffer := s.buffer + 1 } else s
  match s1.timer with
  | none => s1
  | some k => if k = 1 then fireTimeout { s1 with timer := none }
              else { s1 with timer := some (k - 1) }

/-- Events observed by the offscreen context: a loudness sample at an
interval tick, or a pause/resume command from `handleMessages`
(offscreen.js lines 29-34). -/
inductive SegEvent
  | sample (db : Int)
  | pauseCmd
  | resumeCmd
  deriving DecidableEq, Repr

/-- One event step: a sample runs the interval handler and then the 200 ms of
real time that follow it; `pauseOffscreenRecording` pauses only a recording
recorder, `resumeOffscreenRecording` resumes only a paused one. -/
def segStep (s : SegState) : SegEvent → SegState
  | .sample db => tickAdvance (sampleHandler db s)
  | .pauseCmd => if s.recState = .recording then { s with recState := .paused } else s
  | .resumeCmd => if s.recState = .paused then { s with recState := .recording } else s

/-- Run the offscreen state machine over a list of events. -/
def segRun (evs : List SegEvent) : SegState := evs.foldl segStep segInit

/-- Run the silence-detection loop on a pure sequence of loudness samples,
one per 200 ms period, with no external commands. -/
def runFrom (s : SegState) (dbs : List Int) : SegState :=
  dbs.foldl (fun t db => segStep t (.sample db)) s

/-- The samples-only run from the initial state. -/
def runSamples (dbs : List Int) : SegState := runFrom segInit dbs

/-! ## Spec-side chunk count -/

/-- Length of the leading run of silence samples. -/
def leadingSilence : List Int → Nat
  | [] => 0
  | db :: rest => if isLoud db then 0 else leadingSilence rest + 1

/-- Modelled from the spec: "a chunk is emitted if and only if a speech run
is followed by a silence run whose duration ≥ hangover (1500 ms); shorter
silence gaps never split a chunk." The flag records whether speech has been
heard since the last emitted chunk; at each silence sample heard after
speech, the duration of the silence run from this sample on is compared with
the hangover, one chunk being counted per qualifying speech-run/silence-run
pair. -/
def specCount : Bool → List Int → Nat
  | _, [] => 0
  | seen, db :: rest =>
    if isLoud db then specCount true rest
    else if seen && decide (SPEECH_TIMEOUT ≤ CHECK_PERIOD * (leadingSilence rest + 1)) then
      specCount false rest + 1
    else specCount seen rest

/-- Spec-side number of chunks for a loudness sequence. -/
def specChunks (dbs : List Int) : Nat := specCount false dbs

/-! ## Refinement: the silence-detection loop emits exactly the spec's chunks -/

/-- Invariant of the samples-only run: the recorder is never paused, a pending
timeout implies the recorder is recording and has between 1 and 7 tick
credits left, and a recording recorder has a non-empty buffer. -/
def SegInv (s : SegState) : Prop :=
  s.recState ≠ .paused ∧
  (∀ k, s.timer = some k → s.recState = .recording ∧ 1 ≤ k ∧ k ≤ 7) ∧
  (s.recState = .recording → 1 ≤ s.buffer)

/-- Chunks the machine will still emit on the remaining samples: with a
pending timeout of `k` tick credits, one chunk fires after `k` more silent
samples; otherwise the count restarts from the spec scan with the flag given
by whether the recorder is running. -/
def futureCount (s : SegState) (l : List Int) : Nat :=
  match s.timer with
  | some k =>
    if k ≤ leadingSilence l then specCount false (List.drop k l) + 1
    else specCount true l
  | none => specCount (decide (s.recState = .recording)) l

theorem hangover_iff (L : Nat) :
    (SPEECH_TIMEOUT ≤ CHECK_PERIOD * (L + 1)) ↔ 7 ≤ L := by
  simp only [SPEECH_TIMEOUT, CHECK_PERIOD]
  omega

theorem leadingSilence_cons_loud {d : Int} (rest : List Int) (h : isLoud d = true) :
    leadingSilence (d :: rest) = 0 := by
  simp [leadingSilence, h]

theorem leadingSilence_cons_silent {d : Int} (rest : List Int) (h : isLoud d = false) :
    leadingSilence (d :: rest) = leadingSilence rest + 1 := by
  simp [leadingSilence, h]

theorem specCount_cons_loud (seen : Bool) {d : Int} (rest : List Int)
    (h : isLoud d = true) : specCount seen (d :: rest) = specCount true rest := by
  simp [specCount, h]

theorem specCount_cons_silent_false {d : Int} (rest : List Int)
    (h : isLoud d = false) : specCount false (d :: rest) = specCount false rest := by
  simp [specCount, h]

theorem specCount_cons_silent_true {d : Int} (rest : List Int) (h : isLoud d = false) :
    specCount true (d :: rest) =
      if 7 ≤ leadingSilence rest then specCount false rest + 1
      else specCount true rest := by
  simp only [specCount, h, Bool.false_eq_true, if_false, Bool.true_and,
    decide_eq_true_eq, hangover_iff]

theorem specCount_false_drop (n : Nat) :
    ∀ l : List Int, n ≤ leadingSilence l →
      specCount false l = specCount false (List.drop n l) := by
  induction n with
  | zero => intro l _; simp
  | succ n ih =>
    intro l h
    match l with
    | [] => simp [leadingSilence] at h
    | d :: rest =>
      rcases hd : isLoud d with _ | _
      · rw [leadingSilence_cons_silent rest hd] at h
        have h' : n ≤ leadingSilence rest := by omega
        rw [specCount_cons_silent_false rest hd, List.drop_succ_cons]
        exact ih rest h'
      · rw [leadingSilence_cons_loud rest hd] at h
        omega

theorem futureCount_some (k : Nat) (r : MRState) (b c : Nat) (p : Bool) (l : List Int) :
    futureCount ⟨r, some k, b, c, p⟩ l =
      if k ≤ leadingSilence l then specCount false (List.drop k l) + 1
      else specCount true l := rfl

theorem futureCount_none (r : MRState) (b c : Nat) (p : Bool) (l : List Int) :
    futureCount ⟨r, none, b, c, p⟩ l = specCount (decide (r = .recording)) l := rfl

theorem decide_inactive_recording :
    decide (MRState.inactive = MRState.recording) = false := rfl

theorem decide_recording_recording :
    decide (MRState.recording = MRState.recording) = true := rfl

theorem runFrom_chunks (l : List Int) :
    ∀ s : SegState, SegInv s →
      (runFrom s l).chunks = s.chunks + futureCount s l := by
  induction l with
  | nil =>
    rintro ⟨r, t, b, c, p⟩ ⟨hp, htm, hbuf⟩
    match t with
    | none => simp [runFrom, futureCount_none, specCount]
    | some k =>
      obtain ⟨hr, hk1, hk7⟩ := htm k rfl
      have hno : ¬ (k ≤ leadingSilence ([] : List Int)) := by
        simp only [leadingSilence]; omega
      rw [futureCount_some, if_neg hno]
      simp [runFrom, specCount]
  | cons d rest ih =>
    rintro ⟨r, t, b, c, p⟩ ⟨hp, htm, hbuf⟩
    have hrun : runFrom ⟨r, t, b, c, p⟩ (d :: rest) =
        runFrom (segStep ⟨r, t, b, c, p⟩ (.sample d)) rest := rfl
    rcases hd : isLoud d with _ | _
    · -- silence sample
      match r, t with
      | .paused, _ => exact absurd rfl hp
      | .inactive, some k => exact absurd (htm k rfl).1 (by simp)
      | .inactive, none =>
        have hstep : segStep ⟨.inactive, none, b, c, p⟩ (.sample d) =
            ⟨.inactive, none, b, c, p⟩ := by
          simp [segStep, sampleHandler, tickAdvance, hd]
        rw [hrun, hstep, ih _ ⟨by simp, by simp, by simp⟩]
        rw [futureCount_none, futureCount_none, decide_inactive_recording,
            specCount_cons_silent_false rest hd]
      | .recording, none =>
        -- arm the hangover timeout; it has 7 tick credits left after this tick
        have hstep : segStep ⟨.recording, none, b, c, p⟩ (.sample d) =
            ⟨.recording, some 7, b + 1, c, p⟩ := by
          simp [segStep, sampleHandler, tickAdvance, hd, timerTicks,
                SPEECH_TIMEOUT, CHECK_PERIOD]
        rw [hrun, hstep,
            ih _ ⟨by simp, by intro k hk; simp at hk; subst hk; exact ⟨rfl, by omega, by omega⟩,
                  by simp⟩]
        rw [futureCount_some, futureCount_none, decide_recording_recording,
            specCount_cons_silent_true rest hd]
        by_cases h7 : 7 ≤ leadingSilence rest
        · rw [if_pos h7, if_pos h7, specCount_false_drop 7 rest h7]
        · rw [if_neg h7, if_neg h7]
      | .recording, some k =>
        obtain ⟨-, hk1, hk7⟩ := htm k rfl
        by_cases hk : k = 1
        · -- timeout credit exhausted: the hangover fires, one chunk is emitted
          subst hk
          have hstep : segStep ⟨.recording, some 1, b, c, p⟩ (.sample d) =
              ⟨.inactive, none, 0, c + 1, p⟩ := by
            simp [segStep, sampleHandler, tickAdvance, hd, fireTimeout]
          rw [hrun, hstep, ih _ ⟨by simp, by simp, by simp⟩]
          have h1 : (1 ≤ leadingSilence (d :: rest)) := by
            rw [leadingSilence_cons_silent rest hd]; omega
          rw [futureCount_some, futureCount_none, if_pos h1, List.drop_one,
              List.tail_cons, decide_inactive_recording]
          dsimp only
          omega
        · -- timeout still pending: one credit is consumed
          have hstep : segStep ⟨.recording, some k, b, c, p⟩ (.sample d) =
              ⟨.recording, some (k - 1), b + 1, c, p⟩ := by
            simp [segStep, sampleHandler, tickAdvance, hd, hk]
          rw [hrun, hstep,
              ih _ ⟨by simp,
                    by intro j hj; simp at hj; subst hj; exact ⟨rfl, by omega, by omega⟩,
                    by simp⟩]
          rw [futureCount_some, futureCount_some]
          rw [leadingSilence_cons_silent rest hd] at *
          by_cases hkL : k ≤ leadingSilence rest + 1
          · have hL : k - 1 ≤ leadingSilence rest := by omega
            rw [if_pos hkL, if_pos hL]
            have hdrop : List.drop k (d :: rest) = List.drop (k - 1) rest := by
              obtain ⟨k', rfl⟩ : ∃ k', k = k' + 1 := ⟨k - 1, by omega⟩
              simp
            rw [hdrop]
          · have hL : ¬ (k - 1 ≤ leadingSilence rest) := by omega
            rw [if_neg hkL, if_neg hL, specCount_cons_silent_true rest hd]
            have h7 : ¬ (7 ≤ leadingSilence rest) := by omega
            rw [if_neg h7]

    · -- speech sample: clear any pending timeout, start recorder if inactive
      match r, t with
      | .paused, _ => exact absurd rfl hp
      | .inactive, some k => exact absurd (htm k rfl).1 (by simp)
      | .inactive, none =>
        have hstep : segStep ⟨.inactive, none, b, c, p⟩ (.sample d) =
            ⟨.recording, none, b + 1, c, p⟩ := by
          simp [segStep, sampleHandler, tickAdvance, hd]
        rw [hrun, hstep, ih _ ⟨by simp, by simp, by simp⟩]
        rw [futureCount_none, futureCount_none, decide_inactive_recording,
            decide_recording_recording, specCount_cons_loud false rest hd]
      | .recording, none =>
        have hstep : segStep ⟨.recording, none, b, c, p⟩ (.sample d) =
            ⟨.recording, none, b + 1, c, p⟩ := by
          simp [segStep, sampleHandler, tickAdvance, hd]
        rw [hrun, hstep, ih _ ⟨by simp, by simp, by simp⟩]
        rw [futureCount_none, futureCount_none, decide_recording_recording,
            specCount_cons_loud true rest hd]
      | .recording, some k =>
        have hstep : segStep ⟨.recording, some k, b, c, p⟩ (.sample d) =
            ⟨.recording, none, b + 1, c, p⟩ := by
          simp [segStep, sampleHandler, tickAdvance, hd]
        rw [hrun, hstep, ih _ ⟨by simp, by simp, by simp⟩]
        obtain ⟨-, hk1, -⟩ := htm k rfl
        have hno : ¬ (k ≤ leadingSilence (d :: rest)) := by
          rw [leadingSilence_cons_loud rest hd]; omega
        rw [futureCount_some, futureCount_none, decide_recording_recording,
            if_neg hno, specCount_cons_loud true rest hd]

/-- The spec's worked scenario: thirteen 200 ms samples around a three-sample
speech burst followed by eight silence samples produce exactly one chunk. -/
theorem scenario_thirteen_samples :
    (runSamples [-60, -60, -30, -30, -30, -60, -60, -60, -60, -60, -60, -60, -60]).chunks
      = 1 := by decide

/-- C1: For every sequence of loudness samples fed to the silence-detection
loop at one sample per 200 ms period, a chunk is emitted if and only if a run
of samples classified as speech (loudness > -50 dB) is followed by a run of
silence samples whose total duration is at least the 1500 ms hangover; any
silence gap shorter than the hangover never splits a chunk. Formalised as a
refinement: the chunk count of the silence-detection machine
(`startSilenceDetection`, offscreen.js) on any sample sequence equals the
count prescribed by the spec's speech-run/silence-run characterisation. -/
theorem c1_chunks_iff_speech_then_hangover (dbs : List Int) :
    (runSamples dbs).chunks = specChunks dbs := by
  have h := runFrom_chunks dbs segInit
    ⟨by simp [segInit], by simp [segInit], by simp [segInit]⟩
  rw [runSamples, h, segInit, futureCount_none, decide_inactive_recording]
  simp [specChunks]

/-! ## Pause and the pending hangover timeout (claim C5) -/

/-- While the recorder is paused, the interval handler ignores every
classification (offscreen.js lines 106-108). -/
theorem sampleHandler_paused (db : Int) (s : SegState) (h : s.recState = .paused) :
    sampleHandler db s = s := by
  simp [sampleHandler, h]

/-- A trace in which the user pauses while a silence hangover timeout is
pending: speech starts the recorder, one silence sample arms the 1500 ms
timeout, the pause command arrives, and seven further 200 ms periods elapse
(sampled while paused), after which the timeout fires. -/
def pausedHangoverTrace : List SegEvent :=
  [.sample (-30), .sample (-60), .pauseCmd] ++ List.replicate 7 (.sample (-60))

/-- C5 (failing-input evidence): on `pausedHangoverTrace` the pending hangover
timeout fires 1500 ms into the pause, stops the paused recorder and emits the
buffered chunk — so a chunk IS emitted during the pause, contradicting the
claim that a pending hangover timer cannot cause an emission while paused. -/
theorem c5_pending_hangover_fires_during_pause :
    (segRun pausedHangoverTrace).pausedEmit = true ∧
      (segRun pausedHangoverTrace).chunks = 1 := by decide

/-! ## Chunk finalisation never emits an empty chunk (claim C6) -/

/-- Events of the `MediaRecorder` buffering callbacks (offscreen.js lines
62-72): a `dataavailable` event carrying a blob of `size` bytes, or a `stop`
event finalising the buffered blobs into one emitted chunk. -/
inductive RecEvent
  | data (size : Nat)
  | stop
  deriving DecidableEq, Repr

/-- Buffer state of the recording callbacks: the `audioChunks` blob sizes and
the byte sizes of the chunks emitted via `processAudioChunk`. -/
structure RecBufState where
  audioChunks : List Nat
  emitted : List Nat
  deriving DecidableEq, Repr

/-- `ondataavailable` pushes a blob only when `event.data.size > 0`;
`onstop` returns without emitting when `audioChunks` is empty and otherwise
emits one chunk made of all buffered blobs, then clears the buffer. -/
def recEventStep (s : RecBufState) : RecEvent → RecBufState
  | .data n => if 0 < n then { s with audioChunks := s.audioChunks ++ [n] } else s
  | .stop =>
    if s.audioChunks = [] then s
    else { audioChunks := [], emitted := s.emitted ++ [s.audioChunks.sum] }

/-- Run the buffering callbacks from a given state. -/
def recRunFrom (s : RecBufState) (evs : List RecEvent) : RecBufState :=
  evs.foldl recEventStep s

/-- Run the buffering callbacks from the initial empty state. -/
def recRun (evs : List RecEvent) : RecBufState := recRunFrom ⟨[], []⟩ evs

/-- Invariant: every buffered blob and every emitted chunk is non-empty. -/
def RecInv (s : RecBufState) : Prop :=
  (∀ n ∈ s.audioChunks, 0 < n) ∧ (∀ n ∈ s.emitted, 0 < n)

theorem sum_pos_of_forall_pos (l : List Nat) (hne : l ≠ [])
    (hall : ∀ n ∈ l, 0 < n) : 0 < l.sum := by
  match l with
  | [] => exact absurd rfl hne
  | a :: rest =>
    have ha : 0 < a := hall a (List.mem_cons_self a rest)
    simp only [List.sum_cons]
    omega

theorem recEventStep_inv (s : RecBufState) (e : RecEvent) (h : RecInv s) :
    RecInv (recEventStep s e) := by
  obtain ⟨hbuf, hemit⟩ := h
  match e with
  | .data n =>
    by_cases hn : 0 < n
    · refine ⟨?_, by simp [recEventStep, hn]; exact hemit⟩
      intro m hm
      simp [recEventStep, hn] at hm
      rcases hm with hm | rfl
      · exact hbuf m hm
      · exact hn
    · exact ⟨by simpa [recEventStep, hn] using hbuf,
             by simpa [recEventStep, hn] using hemit⟩
  | .stop =>
    by_cases hb : s.audioChunks = []
    · exact ⟨by simp only [recEventStep, if_pos hb]; exact hbuf,
             by simp only [recEventStep, if_pos hb]; exact hemit⟩
    · refine ⟨by simp [recEventStep, hb], ?_⟩
      intro m hm
      simp [recEventStep, hb] at hm
      rcases hm with hm | rfl
      · exact hemit m hm
      · exact sum_pos_of_forall_pos s.audioChunks hb hbuf

theorem recRunFrom_inv (evs : List RecEvent) :
    ∀ s : RecBufState, RecInv s → RecInv (recRunFrom s evs) := by
  induction evs with
  | nil => intro s h; exact h
  | cons e rest ih =>
    intro s h
    exact ih _ (recEventStep_inv s e h)

/-- C6: for every execution of the segmentation engine's buffering callbacks,
every emitted chunk contains at least one buffered byte: a chunk with zero
buffered bytes is never emitted — `ondataavailable` drops empty blobs and
`onstop` (reached on hangover expiry and on stop alike) returns early when
the buffer is empty. -/
theorem c6_no_empty_chunk_emitted (evs : List RecEvent) (n : Nat)
    (hn : n ∈ (recRun evs).emitted) : 0 < n := by
  have h := recRunFrom_inv evs ⟨[], []⟩ ⟨by simp, by simp⟩
  exact h.2 n hn

/-- Witness for C6: the event list `[data 3, data 0, stop]` emits exactly the
chunk of 3 bytes, and the theorem applies to it. -/
theorem c6_no_empty_chunk_emitted_witness :
    3 ∈ (recRun [.data 3, .data 0, .stop]).emitted ∧ 0 < 3 :=
  ⟨by decide, c6_no_empty_chunk_emitted [.data 3, .data 0, .stop] 3 (by decide)⟩

/-! ## Transcription dispatcher (background service worker, `transcribeAudio`) -/

/-- One element of a Gemini response's `parts` array. -/
structure GPart where
  text : Option String
  deriving DecidableEq, Repr

/-- The `content` object of a Gemini response candidate. -/
structure GContent where
  parts : Option (List GPart)
  deriving DecidableEq, Repr

/-- One element of a Gemini response's `candidates` array. -/
structure GCandidate where
  content : Option GContent
  deriving DecidableEq, Repr

/-- A parsed provider JSON response; every field may be absent. -/
structure GResponse where
  candidates : Option (List GCandidate)
  deriving DecidableEq, Repr

/-- The optional chain `result?.candidates?.[0]?.content?.parts?.[0]?.text`. -/
def chainText (r : GResponse) : Option String :=
  (((r.candidates.bind List.head?).bind GCandidate.content).bind GContent.parts).bind
    (fun ps => (List.head? ps).bind GPart.text)

/-- JS truthiness of the chained text: `if (result?...?.text)` accepts the
response exactly when the text is present and non-empty. -/
def truthyText (r : GResponse) : Option String :=
  match chainText r with
  | some t => if t = "" then none else some t
  | none => none

/-- Outcome of one service call: a parsed response, or a thrown error. -/
inductive SvcResult
  | ok (r : GResponse)
  | err (msg : String)
  deriving DecidableEq, Repr

/-- The transcript a service outcome yields, when well-formed and non-empty. -/
def svcText : SvcResult → Option String
  | .ok r => truthyText r
  | .err _ => none

/-- The error message `transcribeAudio` records for a service that did not
yield a transcript: `"name: message"` on a thrown error and an
empty-or-invalid notice on a well-formed-but-empty response. -/
def svcErrorMessage (name : String) : SvcResult → String
  | .ok _ => name ++ ": Received an empty or invalid response."
  | .err m => name ++ ": " ++ m

/-- The `service.name` identifiers in configured order. -/
def geminiName : String := "callGeminiApi"

def whisperName : String := "callWhisperApi"

def deepgramName : String := "callDeepgramApi"

/-- Result of one dispatch: the transcript or the aggregated failure, plus
the names of the services that were actually called, in call order. -/
structure DispatchOut where
  result : Except String String
  attempted : List String
  deriving Repr

/-- The provider loop of `transcribeAudio` (part_000 lines 112-135): try each
service in order; on the first well-formed non-empty text return it at once;
otherwise record the service's error message and continue; when the list is
exhausted, fail with the aggregated message. -/
def tryServices : List (String × SvcResult) → List String → List String → DispatchOut
  | [], tried, errs =>
    ⟨.error ("Transcription failed. Details: " ++ String.intercalate "; " errs), tried⟩
  | (n, sr) :: rest, tried, errs =>
    match svcText sr with
    | some t => ⟨.ok t, tried ++ [n]⟩
    | none => tryServices rest (tried ++ [n]) (errs ++ [svcErrorMessage n sr])

/-- `transcribeAudio` with the configured service order
`[callGeminiApi, callWhisperApi, callDeepgramApi]`, abstracted over the three
services' outcomes. -/
def transcribeAudio (g w d : SvcResult) : DispatchOut :=
  tryServices [(geminiName, g), (whisperName, w), (deepgramName, d)] [] []

/-- The placeholder `callWhisperApi`: unconditionally throws. -/
def callWhisperApi : SvcResult := .err "Whisper API not implemented."

/-- The placeholder `callDeepgramApi`: unconditionally throws. -/
def callDeepgramApi : SvcResult := .err "Deepgram API not implemented."

/-- The full dispatch as wired in the source: whisper and deepgram are the
placeholder services; only the Gemini outcome varies. -/
def transcribeAudioFull (g : SvcResult) : DispatchOut :=
  transcribeAudio g callWhisperApi callDeepgramApi

/-! ## Gemini retry loop (`callGeminiApi`, part_000 lines 140-159) -/

/-- Trace of one run of the retry loop: the final result (the last attempt's
response or rethrown error), the number of fetch attempts made, and the
backoff delays slept between consecutive attempts, in order. -/
structure RetryTrace where
  result : Except String GResponse
  attempts : Nat
  delays : List Nat
  deriving Repr

/-- The retry loop body: `f i` is the outcome of the `fetch`+parse of attempt
`i`; a successful attempt returns immediately; a failed attempt rethrows when
it was the last (`i === retries - 1`) and otherwise sleeps
`delay * 2^i` before the next attempt. `remaining` counts the loop
iterations left; with `remaining = 0` the loop body never runs. -/
def geminiGo (f : Nat → Except String GResponse) (delay : Nat) :
    Nat → Nat → RetryTrace
  | _, 0 => ⟨.error "no attempt made", 0, []⟩
  | i, r + 1 =>
    match f i with
    | .ok res => ⟨.ok res, 1, []⟩
    | .error e =>
      if r = 0 then ⟨.error e, 1, []⟩
      else
        let t := geminiGo f delay (i + 1) r
        ⟨t.result, t.attempts + 1, delay * 2 ^ i :: t.delays⟩

/-- `callGeminiApi` with its default configuration: `retries = 3`,
`delay = 1000` ms. -/
def callGeminiApi (f : Nat → Except String GResponse) : RetryTrace :=
  geminiGo f 1000 0 3

/-- Lift the retry loop's result to a dispatch-level service outcome. -/
def toSvc : Except String GResponse → SvcResult
  | .ok r => .ok r
  | .error e => .err e

/-- A response whose chained text is `"hello"`. -/
def gHello : GResponse := ⟨some [⟨some ⟨some [⟨some "hello"⟩]⟩⟩]⟩

/-- C2: for every chunk and credential, dispatch tries the providers strictly
in the configured order (Gemini, then Whisper, then Deepgram); as soon as one
provider returns a well-formed non-empty text result, dispatch yields that
text and no later provider is ever attempted: the attempted-service list
stops exactly at the first service whose outcome carries a truthy text. -/
theorem c2_dispatch_order_short_circuit (g w d : SvcResult) :
    (∀ t, svcText g = some t →
      transcribeAudio g w d = ⟨.ok t, [geminiName]⟩) ∧
    (svcText g = none → ∀ t, svcText w = some t →
      transcribeAudio g w d = ⟨.ok t, [geminiName, whisperName]⟩) ∧
    (svcText g = none → svcText w = none → ∀ t, svcText d = some t →
      transcribeAudio g w d = ⟨.ok t, [geminiName, whisperName, deepgramName]⟩) := by
  refine ⟨fun t ht => ?_, fun hg t ht => ?_, fun hg hw t ht => ?_⟩ <;>
    simp [transcribeAudio, tryServices, *]

/-- Witness for C2: Gemini throws, Whisper returns `"hello"`; dispatch yields
`"hello"` having attempted exactly Gemini then Whisper. -/
theorem c2_dispatch_order_short_circuit_witness :
    transcribeAudio (.err "boom") (.ok gHello) (.err "x") =
      ⟨.ok "hello", [geminiName, whisperName]⟩ :=
  (c2_dispatch_order_short_circuit (.err "boom") (.ok gHello) (.err "x")).2.1 rfl
    "hello" rfl

/-- C7: the Gemini retry loop makes at most 3 fetch attempts per dispatch;
the backoff delays slept between consecutive attempts are exactly
`1000 * 2^i` for attempt index `i`, so each delay is double the previous
one. -/
theorem c7_retry_bound_and_backoff (f : Nat → Except String GResponse) :
    (callGeminiApi f).attempts ≤ 3 ∧
    (callGeminiApi f).delays =
      (List.range ((callGeminiApi f).attempts - 1)).map (fun i => 1000 * 2 ^ i) ∧
    (∀ j, j + 1 < (callGeminiApi f).delays.length →
      (callGeminiApi f).delays.getD (j + 1) 0 =
        2 * (callGeminiApi f).delays.getD j 0) := by
  rcases h0 : f 0 with e0 | r0
  case ok =>
    have e : callGeminiApi f = ⟨.ok r0, 1, []⟩ := by
      simp [callGeminiApi, geminiGo, h0]
    rw [e]
    exact ⟨by norm_num, by simp, by intro j hj; simp at hj⟩
  case error =>
    rcases h1 : f 1 with e1 | r1
    case ok =>
      have e : callGeminiApi f = ⟨.ok r1, 2, [1000]⟩ := by
        simp [callGeminiApi, geminiGo, h0, h1]
      rw [e]
      refine ⟨by norm_num, by norm_num [List.range_succ], ?_⟩
      intro j hj
      simp at hj
    case error =>
      rcases h2 : f 2 with e2 | r2
      case ok =>
        have e : callGeminiApi f = ⟨.ok r2, 3, [1000, 2000]⟩ := by
          simp [callGeminiApi, geminiGo, h0, h1, h2]
        rw [e]
        refine ⟨by norm_num, by norm_num [List.range_succ], ?_⟩
        intro j hj
        simp at hj
        have hj0 : j = 0 := by omega
        subst hj0
        rfl
      case error =>
        have e : callGeminiApi f = ⟨.error e2, 3, [1000, 2000]⟩ := by
          simp [callGeminiApi, geminiGo, h0, h1, h2]
        rw [e]
        refine ⟨by norm_num, by norm_num [List.range_succ], ?_⟩
        intro j hj
        simp at hj
        have hj0 : j = 0 := by omega
        subst hj0
        rfl

/-- Witness for C7 at the all-failing fetch sequence: three attempts are made
and the two backoff delays are 1000 ms then 2000 ms. -/
theorem c7_retry_bound_and_backoff_witness :
    (callGeminiApi fun _ => .error "boom").attempts ≤ 3 ∧
      (callGeminiApi fun _ => .error "boom").delays.getD 1 0 =
        2 * (callGeminiApi fun _ => .error "boom").delays.getD 0 0 :=
  ⟨(c7_retry_bound_and_backoff fun _ => .error "boom").1,
   (c7_retry_bound_and_backoff fun _ => .error "boom").2.2 0 (by decide)⟩

/-- C8: when every provider exhausts its attempts without a well-formed
non-empty result, the dispatch fails with a single aggregated failure whose
detail is exactly one message per provider — the provider identifier plus
that provider's last error — joined in provider order; and an exhausted
Gemini retry loop indeed rethrows the error of its last (third) attempt. -/
theorem c8_aggregated_failure (g : SvcResult) (f : Nat → Except String GResponse)
    (hg : svcText g = none) :
    (transcribeAudioFull g).result =
      .error ("Transcription failed. Details: " ++
        String.intercalate "; "
          [svcErrorMessage geminiName g,
           svcErrorMessage whisperName callWhisperApi,
           svcErrorMessage deepgramName callDeepgramApi]) ∧
    (∀ e, (callGeminiApi f).result = .error e →
      f 2 = .error e ∧ (callGeminiApi f).attempts = 3) := by
  constructor
  · have hw : svcText callWhisperApi = none := rfl
    have hd : svcText callDeepgramApi = none := rfl
    simp [transcribeAudioFull, transcribeAudio, tryServices, hg, hw, hd]
  · intro e he
    rcases h0 : f 0 with e0 | r0
    case ok =>
      have : callGeminiApi f = ⟨.ok r0, 1, []⟩ := by
        simp [callGeminiApi, geminiGo, h0]
      rw [this] at he
      exact absurd he (by simp)
    case error =>
      rcases h1 : f 1 with e1 | r1
      case ok =>
        have : callGeminiApi f = ⟨.ok r1, 2, [1000]⟩ := by
          simp [callGeminiApi, geminiGo, h0, h1]
        rw [this] at he
        exact absurd he (by simp)
      case error =>
        rcases h2 : f 2 with e2 | r2
        case ok =>
          have : callGeminiApi f = ⟨.ok r2, 3, [1000, 2000]⟩ := by
            simp [callGeminiApi, geminiGo, h0, h1, h2]
          rw [this] at he
          exact absurd he (by simp)
        case error =>
          have hcall : callGeminiApi f = ⟨.error e2, 3, [1000, 2000]⟩ := by
            simp [callGeminiApi, geminiGo, h0, h1, h2]
          rw [hcall] at he
          simp at he
          refine ⟨?_, by rw [hcall]⟩
          simp [he]

/-- Witness for C8: Gemini threw `"boom"`, the placeholders threw their
not-implemented errors; the aggregated failure lists the three provider
messages in order. -/
theorem c8_aggregated_failure_witness :
    (transcribeAudioFull (.err "boom")).result =
      .error ("Transcription failed. Details: " ++
        String.intercalate "; "
          [svcErrorMessage geminiName (.err "boom"),
           svcErrorMessage whisperName callWhisperApi,
           svcErrorMessage deepgramName callDeepgramApi]) :=
  (c8_aggregated_failure (.err "boom") (fun _ => .error "x") rfl).1

/-- C10: the second and third providers (`callWhisperApi`, `callDeepgramApi`)
unconditionally raise and never return a result, so a dispatch can succeed
only via the first provider (Gemini), and whenever Gemini yields no
well-formed non-empty result the dispatch ends in the aggregated failure. -/
theorem c10_fallbacks_never_succeed (g : SvcResult) :
    callWhisperApi = .err "Whisper API not implemented." ∧
    callDeepgramApi = .err "Deepgram API not implemented." ∧
    (∀ t, (transcribeAudioFull g).result = .ok t → svcText g = some t) ∧
    (svcText g = none → ∃ msg, (transcribeAudioFull g).result = .error msg) := by
  refine ⟨rfl, rfl, ?_, ?_⟩
  · intro t ht
    cases hsg : svcText g with
    | some u =>
      have : transcribeAudioFull g = ⟨.ok u, [geminiName]⟩ := by
        simp [transcribeAudioFull, transcribeAudio, tryServices, hsg]
      rw [this] at ht
      simp at ht
      rw [ht]
    | none =>
      have hw : svcText callWhisperApi = none := rfl
      have hd : svcText callDeepgramApi = none := rfl
      have : (transcribeAudioFull g).result =
          .error ("Transcription failed. Details: " ++
            String.intercalate "; "
              [svcErrorMessage geminiName g,
               svcErrorMessage whisperName callWhisperApi,
               svcErrorMessage deepgramName callDeepgramApi]) := by
        simp [transcribeAudioFull, transcribeAudio, tryServices, hsg, hw, hd]
      rw [this] at ht
      exact absurd ht (by simp)
  · intro hsg
    have hw : svcText callWhisperApi = none := rfl
    have hd : svcText callDeepgramApi = none := rfl
    refine ⟨"Transcription failed. Details: " ++
      String.intercalate "; "
        [svcErrorMessage geminiName g,
         svcErrorMessage whisperName callWhisperApi,
         svcErrorMessage deepgramName callDeepgramApi], ?_⟩
    simp [transcribeAudioFull, transcribeAudio, tryServices, hsg, hw, hd]

/-- Witness for C10: a successful dispatch with `gHello` did come from
Gemini. -/
theorem c10_fallbacks_never_succeed_witness :
    svcText (SvcResult.ok gHello) = some "hello" :=
  (c10_fallbacks_never_succeed (.ok gHello)).2.2.1 "hello" rfl

/-! ## Offline queue (`handleAudioChunk` / `processOfflineQueue`, claim C3) -/

/-- State of the orchestrator's chunk routing: the durable
`offlineAudioQueue` backlog, the chunks forwarded to the transcription
dispatcher (in forwarding order), and the log of dispatch outcomes. -/
structure QueueState where
  queue : List String
  dispatched : List String
  results : List Bool
  deriving DecidableEq, Repr

/-- `handleAudioChunk` (part_000 lines 98-106): while offline, append the
chunk to the durable queue and return without dispatching; while online,
forward it to `transcribeAudio`, whose outcome is recorded by `outcome`. -/
def handleAudioChunk (online : Bool) (outcome : String → Bool) (chunk : String)
    (st : QueueState) : QueueState :=
  if !online then { st with queue := st.queue ++ [chunk] }
  else { st with dispatched := st.dispatched ++ [chunk],
                 results := st.results ++ [outcome chunk] }

/-- `processOfflineQueue` (part_000 lines 172-181), run on the
connectivity-restored `online` event: read the whole backlog (return if
empty), dispatch every entry through `transcribeAudio` and await them all
(`transcribeAudio` never rejects — it reports failures internally — so the
`Promise.all` settles for any mix of outcomes), then remove the backlog key
unconditionally. -/
def processOfflineQueue (outcome : String → Bool) (st : QueueState) : QueueState :=
  if st.queue = [] then st
  else { queue := []
         dispatched := st.dispatched ++ st.queue
         results := st.results ++ st.queue.map outcome }

/-- C3: a chunk arriving while connectivity is unavailable is appended to the
offline queue and not forwarded to the dispatcher; on the
connectivity-restored event the drain dispatches every queued entry and
clears the backlog, and it does so for every possible assignment of dispatch
outcomes — the backlog ends empty whether individual dispatches succeeded or
failed. -/
theorem c3_offline_queue_buffer_and_drain (outcome : String → Bool)
    (chunk : String) (st : QueueState) :
    (handleAudioChunk false outcome chunk st).queue = st.queue ++ [chunk] ∧
    (handleAudioChunk false outcome chunk st).dispatched = st.dispatched ∧
    (processOfflineQueue outcome st).queue = [] ∧
    (processOfflineQueue outcome st).dispatched = st.dispatched ++ st.queue := by
  refine ⟨rfl, rfl, ?_, ?_⟩ <;> by_cases h : st.queue = [] <;>
    simp [processOfflineQueue, h]

/-! ## Session orchestrator `start` (claim C4) -/

/-- The persisted `recordingState` values. -/
inductive RecordingState
  | idle
  | recording
  | paused
  deriving DecidableEq, Repr

/-- The persisted session fields in `chrome.storage.local`. -/
structure Store where
  recordingState : RecordingState
  startTime : Option Nat
  pausedTime : Option Nat
  secondsElapsed : Nat
  transcript : List String
  deriving DecidableEq, Repr

/-- The reply the background message listener sends for a `startRecording`
request. -/
inductive StartResponse
  | success
  | failure (msg : String)
  deriving DecidableEq, Repr

/-- The background `startRecording` (part_000 lines 54-78) on its
environment-success path (offscreen document created, active tab found,
stream id obtained): it checks nothing about the current session state,
persists `{recordingState: 'recording', startTime: now, transcript: []}`, and
the message listener replies `{success: true}`. -/
def bgStartRecording (now : Nat) (st : Store) : Store × StartResponse :=
  ({ st with recordingState := .recording
             startTime := some now
             transcript := [] },
   .success)

/-- The offscreen `startRecording` guard (offscreen.js lines 40-43): when a
recorder exists and its state is not `inactive`, it warns and returns without
creating a second recorder; with no recorder, or an inactive one, a new
recorder is started. -/
def offscreenStartsNewRecorder : Option MRState → Bool
  | none => true
  | some m => m = .inactive

/-- A persisted store mid-session: recording since time 5 with one transcript
entry. -/
def c4Store : Store := ⟨.recording, some 5, none, 0, ["entry"]⟩

/-- C4 counterexample: a start request issued while the persisted session
state is `recording` does NOT reject — the listener replies success — and it
does NOT leave the persisted state unchanged: `startTime` is overwritten and
the transcript is cleared. -/
theorem c4_counterexample_start_not_rejected :
    (bgStartRecording 10 c4Store).2 = .success ∧
      (bgStartRecording 10 c4Store).1.startTime ≠ c4Store.startTime ∧
      (bgStartRecording 10 c4Store).1.transcript ≠ c4Store.transcript := by
  decide

/-- C4 (amended): a start request issued while a session is already
`recording` or `paused` is not rejected by the orchestrator — it replies
success and re-persists `{state: recording, startTime: now, transcript: []}`,
clobbering the previous values; only the offscreen recorder itself guards
against a double start, returning without creating a second recorder. -/
theorem c4_start_overwrites_instead_of_rejecting (now : Nat) (st : Store)
    (_h : st.recordingState = .recording ∨ st.recordingState = .paused) :
    (bgStartRecording now st).2 = .success ∧
    (bgStartRecording now st).1 =
      { st with recordingState := .recording
                startTime := some now
                transcript := [] } ∧
    offscreenStartsNewRecorder (some .recording) = false ∧
    offscreenStartsNewRecorder (some .paused) = false := by
  exact ⟨rfl, rfl, by decide, by decide⟩

/-- Witness for C4 (amended), at the concrete mid-session store. -/
theorem c4_start_overwrites_witness :
    (bgStartRecording 10 c4Store).2 = .success ∧
      (bgStartRecording 10 c4Store).1 =
        { c4Store with recordingState := .recording
                       startTime := some 10
                       transcript := [] } :=
  ⟨(c4_start_overwrites_instead_of_rejecting 10 c4Store (Or.inl rfl)).1,
   (c4_start_overwrites_instead_of_rejecting 10 c4Store (Or.inl rfl)).2.1⟩

/-! ## Popup pause/resume and `secondsElapsed` (claim C9) -/

/-- State of the display (popup) context: its mirror of the session state,
the in-memory `secondsElapsed` counter, whether the 1 s timer interval is
running, and the persisted store. -/
structure PopupState where
  recordingState : RecordingState
  secondsElapsed : Nat
  timerRunning : Bool
  store : Store
  deriving DecidableEq, Repr

/-- `handlePauseResume` (part_001 lines 114-128) at wall-clock time `now`:
from `recording` it pauses — stops the timer and persists
`{recordingState: 'paused', secondsElapsed, pausedTime: now}`; from `paused`
it resumes — restarts the timer and persists
`{recordingState: 'recording', startTime: now}`, leaving the persisted
`secondsElapsed` untouched; otherwise it does nothing. -/
def handlePauseResume (now : Nat) (st : PopupState) : PopupState :=
  if st.recordingState = .recording then
    { st with recordingState := .paused
              timerRunning := false
              store := { st.store with recordingState := .paused
                                       secondsElapsed := st.secondsElapsed
                                       pausedTime := some now } }
  else if st.recordingState = .paused then
    { st with recordingState := .recording
              timerRunning := true
              store := { st.store with recordingState := .recording
                                       startTime := some now } }
  else st

/-- A popup state five seconds into recording: the in-memory counter is 5 but
the persisted `secondsElapsed` is still the 0 written at start (the running
timer only updates the in-memory counter). -/
def c9Popup : PopupState := ⟨.recording, 5, true, ⟨.recording, some 0, none, 0, []⟩⟩

/-- C9 counterexample: pause followed immediately by resume (same wall-clock
time `100`) on `c9Popup` changes the persisted `secondsElapsed` from 0 to 5:
the pause step persists the in-memory counter, which had drifted ahead of the
stale persisted value. -/
theorem c9_counterexample_persisted_changes :
    (handlePauseResume 100 (handlePauseResume 100 c9Popup)).store.secondsElapsed ≠
      c9Popup.store.secondsElapsed := by
  decide

/-- C9 (amended): pause followed immediately by resume with zero elapsed wall
time leaves the in-memory `secondsElapsed` counter unchanged and leaves the
session recording; the pause step persists that in-memory value and the
resume step does not touch it, so the persisted `secondsElapsed` after the
pair equals the pre-pause in-memory counter — unchanged exactly when the
persisted value already agreed with the counter. -/
theorem c9_pause_resume_elapsed (now : Nat) (st : PopupState)
    (h : st.recordingState = .recording) :
    (handlePauseResume now (handlePauseResume now st)).secondsElapsed =
      st.secondsElapsed ∧
    (handlePauseResume now (handlePauseResume now st)).store.secondsElapsed =
      st.secondsElapsed ∧
    (handlePauseResume now (handlePauseResume now st)).recordingState =
      .recording := by
  simp [handlePauseResume, h]

/-- Witness for C9 (amended): on `c9Popup` the pair keeps the in-memory
counter at 5 and persists 5. -/
theorem c9_pause_resume_elapsed_witness :
    (handlePauseResume 100 (handlePauseResume 100 c9Popup)).secondsElapsed = 5 ∧
      (handlePauseResume 100 (handlePauseResume 100 c9Popup)).store.secondsElapsed
        = 5 :=
  ⟨(c9_pause_resume_elapsed 100 c9Popup rfl).1,
   (c9_pause_resume_elapsed 100 c9Popup rfl).2.1⟩

end RealtimeAudio
